import Mathlib

/-!
Shallow embedding of the amphipod solver in
`_posts/2021-12-21-advent-of-code-2021-days-21-25/day23.py`.

The Python state is a tuple `(hallway, room1, room2, room3, room4)` where
the hallway is an 11-tuple of `None` or a letter and each room is a pair
(index 0 = top slot next to the hallway, index 1 = bottom slot).  We embed
it as a structure with a `Fin 11`-indexed hallway and `Fin 4`-indexed rooms
(the Python rooms are 1-based `state[1] .. state[4]`; here room `i : Fin 4`
corresponds to Python room `i+1`).  Empty slots are `Option.none`.
-/

inductive Letter where
  | A
  | B
  | C
  | D
deriving DecidableEq, Repr

abbrev Slot := Option Letter

structure GameState where
  hallway : Fin 11 → Slot
  rooms : Fin 4 → Fin 2 → Slot

/-- Structural equality of states (Python compares the tuples structurally,
e.g. `state == target_state` on line 136). -/
instance : DecidableEq GameState := fun a b =>
  decidable_of_iff (a.hallway = b.hallway ∧ a.rooms = b.rooms)
    (by cases a; cases b; simp [GameState.mk.injEq])

/-- Python `target_rooms = {'A': 1, 'B': 2, 'C': 3, 'D': 4}`, shifted to the
0-based room indices used here. -/
def target_rooms : Letter → Fin 4
  | .A => 0
  | .B => 1
  | .C => 2
  | .D => 3

/-- Python `room_to_hall = {1: 2, 2: 4, 3: 6, 4: 8}` (0-based room index). -/
def room_to_hall (i : Fin 4) : Nat :=
  if i = 0 then 2 else if i = 1 then 4 else if i = 2 then 6 else 8

/-- Python `energy_costs = {'A': 1, 'B': 10, 'C': 100, 'D': 1000}`. -/
def energy_costs : Letter → Nat
  | .A => 1
  | .B => 10
  | .C => 100
  | .D => 1000

/-- Hallway lookup at a plain natural index (all indices used by the source
are in range, so the out-of-range branch is never taken). -/
def hallAt (hall : Fin 11 → Slot) (j : Nat) : Slot :=
  if h : j < 11 then hall ⟨j, h⟩ else none

/-- Python `j in [2, 4, 6, 8]`: is `j` directly in front of a room door? -/
def is_doorway (j : Nat) : Bool :=
  decide (j ∈ ([2, 4, 6, 8] : List Nat))

/-- Lines 29-37: find the first non-empty slot of a room from the top,
returning its index and occupant (`none` when the room is empty). -/
def topLoc (room : Fin 2 → Slot) : Option (Fin 2 × Letter) :=
  match room 0 with
  | some l => some (0, l)
  | none =>
    match room 1 with
    | some l => some (1, l)
    | none => none

/-- Line 45: `all(letter == letter_below for letter_below in state[i][top_loc:])`. -/
def suffix_all (room : Fin 2 → Slot) (t : Fin 2) (l : Letter) : Bool :=
  if t = 0 then decide (room 0 = some l) && decide (room 1 = some l)
  else decide (room 1 = some l)

/-- Line 44: the room-skip condition — the topmost occupant is in its target
room and everything below it matches. -/
def settled_check (s : GameState) (i : Fin 4) (t : Fin 2) (l : Letter) : Bool :=
  decide (target_rooms l = i) && suffix_all (s.rooms i) t l

/-- Overwrite one slot of one room, leaving the hallway alone
(Python mutates `state_list[i][d]`). -/
def set_room (s : GameState) (i : Fin 4) (d : Fin 2) (v : Slot) : GameState :=
  { s with rooms := Function.update s.rooms i (Function.update (s.rooms i) d v) }

/-- Overwrite one hallway slot (Python mutates `hallway_list[j]`). -/
def set_hall (s : GameState) (j : Nat) (v : Slot) : GameState :=
  { s with hallway := fun k => if k.val = j then v else s.hallway k }

/-- Lines 55-61: scan the hallway left of the door (`for j in range(door)`),
collecting non-doorway columns and clearing everything collected so far
whenever an occupied slot is met.  (Python appends `j` before testing the
occupancy of `j`; since an occupied `j` clears the whole accumulator,
including the fresh `j`, testing occupancy first is the same function.) -/
def left_step (hall : Fin 11 → Slot) (acc : List Nat) (j : Nat) : List Nat :=
  if hallAt hall j ≠ none then []
  else if is_doorway j then acc else acc ++ [j]

def left_locs (hall : Fin 11 → Slot) (door : Nat) : List Nat :=
  (List.range door).foldl (left_step hall) []

/-- Lines 62-66: scan the hallway from the door rightwards
(`for j in range(door, 11)`), stopping at the first occupied slot and
collecting non-doorway columns.  `fuel` counts the remaining iterations. -/
def right_scan (hall : Fin 11 → Slot) : Nat → Nat → List Nat
  | _, 0 => []
  | j, fuel + 1 =>
    if hallAt hall j ≠ none then []
    else if is_doorway j then right_scan hall (j + 1) fuel
    else j :: right_scan hall (j + 1) fuel

def right_locs (hall : Fin 11 → Slot) (door : Nat) : List Nat :=
  right_scan hall door (11 - door)

/-- Lines 27-78: the room-to-hallway half of `get_possible_moves`, for one
room.  The cost on line 77 is
`(steps + 1 + abs(loc - room_to_hall[i])) * energy_costs[letter]`. -/
def room_moves (s : GameState) (i : Fin 4) : List (GameState × Nat) :=
  match topLoc (s.rooms i) with
  | none => []
  | some (t, letter) =>
    if settled_check s i t letter then []
    else
      let door := room_to_hall i
      let locs := left_locs s.hallway door ++ right_locs s.hallway door
      locs.map fun loc =>
        (set_hall (set_room s i t none) loc (some letter),
         (t.val + 1 + Nat.dist loc door) * energy_costs letter)

/-- Lines 95-100: the hallway slice strictly between the unit and the door
(door included, starting column excluded). -/
def path_slice (i th : Nat) : List Nat :=
  if i < th then (List.range (th + 1)).drop (i + 1)
  else (List.range i).drop th

/-- Lines 102-105: the `for ... else` check that every slot on the path is
empty. -/
def path_clear (hall : Fin 11 → Slot) (i th : Nat) : Bool :=
  (path_slice i th).all fun j => decide (hallAt hall j = none)

/-- Lines 115-116: `for room_loc, other_letter in reversed(list(enumerate(room_list)))`
with `break` on the first empty slot from the bottom.  When the room is full
the loop runs out and leaves `room_loc = 0`, so the destination slot is the
bottom if it is empty and the top otherwise (even when the top is occupied). -/
def room_slot (room : Fin 2 → Slot) : Fin 2 :=
  if room 1 = none then 1 else 0

/-- Lines 81-132: the hallway-to-room half of `get_possible_moves`, for one
hallway column.  Three oddities of the source are embedded faithfully:

* line 87 computes `room_letters = set(state[target_room]).discard(None)`,
  which is always `None` in Python (`set.discard` returns `None`), so the
  occupancy test on lines 91-92 never fires and is embedded as absent;
* lines 119-126 only print diagnostics and assert a condition that is true
  inside that branch, so they have no semantic effect;
* line 131 sets `energy = steps * energy_costs[letter]` and line 132 yields
  `steps * energy`, i.e. the emitted cost is `steps * steps * rate`. -/
def hall_moves (s : GameState) (i : Fin 11) : List (GameState × Nat) :=
  match s.hallway i with
  | none => []
  | some letter =>
    let tr := target_rooms letter
    let th := room_to_hall tr
    if path_clear s.hallway i.val th then
      let rl := room_slot (s.rooms tr)
      let s2 := set_room (set_hall s i.val none) tr rl (some letter)
      let steps := Nat.dist i.val th + rl.val + 1
      let energy := steps * energy_costs letter
      [(s2, steps * energy)]
    else []

/-- The first `for` loop of `get_possible_moves` (rooms 1..4 in order). -/
def room_to_hall_moves (s : GameState) : List (GameState × Nat) :=
  (List.finRange 4).flatMap (room_moves s)

/-- The second `for` loop of `get_possible_moves` (hallway columns 0..10). -/
def hall_to_room_moves (s : GameState) : List (GameState × Nat) :=
  (List.finRange 11).flatMap (hall_moves s)

/-- Lines 25-132: all (next-state, energy) pairs yielded by the generator,
in emission order. -/
def get_possible_moves (s : GameState) : List (GameState × Nat) :=
  room_to_hall_moves s ++ hall_to_room_moves s

/-- Line 19: the solved position. -/
def room_of : Fin 4 → Letter :=
  fun i => if i = 0 then .A else if i = 1 then .B else if i = 2 then .C else .D

def target_state : GameState :=
  { hallway := fun _ => none, rooms := fun i _ => some (room_of i) }

inductive SearchError where
  | valueError
  | recursionError
deriving DecidableEq, Repr

instance : DecidableEq (Except SearchError Nat) := fun a b =>
  match a, b with
  | .ok x, .ok y => decidable_of_iff (x = y) (by simp)
  | .error x, .error y => decidable_of_iff (x = y) (by simp)
  | .ok _, .error _ => isFalse (by simp)
  | .error _, .ok _ => isFalse (by simp)

/-- The recursive calls made on lines 143-144: `energy + steps_to_target(new_state)`
for each generated move, with the first raised exception propagating
(Python evaluates the moves in order and any exception aborts the loop). -/
def steps_list (f : GameState → Except SearchError Nat) :
    List (GameState × Nat) → Except SearchError (List Nat)
  | [] => .ok []
  | p :: rest =>
    match f p.1 with
    | .error e => .error e
    | .ok v =>
      match steps_list f rest with
      | .error e => .error e
      | .ok vs => .ok ((p.2 + v) :: vs)

/-- Lines 134-146: the memoized recursive search.  `fuel` bounds the
recursion depth (Python raises `RecursionError` past its recursion limit;
`functools.cache` only caches completed calls, so it neither changes the
returned values of this pure function nor breaks recursion cycles).
Line 146 takes `min(possible_costs)`, which raises `ValueError` when
`possible_costs` is empty; that is `SearchError.valueError` here. -/
def steps_to_target : Nat → GameState → Except SearchError Nat
  | 0, _ => .error .recursionError
  | fuel + 1, s =>
    if s = target_state then .ok 0
    else
      match steps_list (steps_to_target fuel) (get_possible_moves s) with
      | .error e => .error e
      | .ok [] => .error .valueError
      | .ok (c :: cs) => .ok (cs.foldl min c)

/-! Helpers for building concrete test states. -/

def mk_room (a b : Slot) : Fin 2 → Slot :=
  fun d => if d = 0 then a else b

def mk_rooms (r0 r1 r2 r3 : Fin 2 → Slot) : Fin 4 → Fin 2 → Slot :=
  fun i => if i = 0 then r0 else if i = 1 then r1 else if i = 2 then r2 else r3

def empty_hall : Fin 11 → Slot := fun _ => none

/-- The classical example layout: `room1=[B,A]`, `room2=[C,D]`, `room3=[B,C]`,
`room4=[D,A]`, hallway empty. -/
def example_initial : GameState :=
  { hallway := empty_hall,
    rooms := mk_rooms (mk_room (some .B) (some .A)) (mk_room (some .C) (some .D))
      (mk_room (some .B) (some .C)) (mk_room (some .D) (some .A)) }

/-- The multiset of unit labels present across the hallway and all room
slots of a state. -/
def state_labels (s : GameState) : Multiset Letter :=
  (((List.finRange 11).filterMap s.hallway : List Letter) : Multiset Letter) +
    ((((List.finRange 4).flatMap fun i => [s.rooms i 0, s.rooms i 1]).filterMap id :
      List Letter) : Multiset Letter)

/-- Modelled from the spec, section 4.2-B: the intended cost of a
hallway-to-room move is
`(horizontal_distance_to_doorway + depth_reached_within_room + 1) * unit_energy_rate`. -/
def spec_hall_to_room_cost (dist depth rate : Nat) : Nat :=
  (dist + depth + 1) * rate

/-- Modelled from the spec, section 4.2-A: column `j` is a valid
room-to-hallway destination from `door` when it is not a doorway column and
is reached by scanning outward from the doorway (leftward over
`door-1, door-2, ...` or rightward over `door+1, door+2, ...`), stopping at
the hallway boundary or the first occupied slot. -/
def spec_reachable (hall : Fin 11 → Slot) (door j : Nat) : Bool :=
  if is_doorway j then false
  else if j < door then
    decide (∀ k : Fin 11, j ≤ k.val → k.val < door → hall k = none)
  else if door < j ∧ j < 11 then
    decide (∀ k : Fin 11, door < k.val → k.val ≤ j → hall k = none)
  else false

/-! Concrete states used to settle the individual claims. -/

/-- A single `A` at hallway column 0, all rooms empty. -/
def c1_state : GameState :=
  { hallway := fun j => if j.val = 0 then some .A else none,
    rooms := mk_rooms (mk_room none none) (mk_room none none)
      (mk_room none none) (mk_room none none) }

/-- The state after the only move from `c1_state`: the `A` settles at the
bottom of room 1. -/
def c1_next : GameState :=
  { hallway := empty_hall,
    rooms := mk_rooms (mk_room none (some .A)) (mk_room none none)
      (mk_room none none) (mk_room none none) }

/-- An `A` at hallway column 0 while its target room holds a `B` in the
bottom slot. -/
def c2_state : GameState :=
  { hallway := fun j => if j.val = 0 then some .A else none,
    rooms := mk_rooms (mk_room none (some .B)) (mk_room none none)
      (mk_room none none) (mk_room none none) }

/-- The generator moves the `A` into room 1 on top of the foreign `B`. -/
def c2_next : GameState :=
  { hallway := empty_hall,
    rooms := mk_rooms (mk_room (some .A) (some .B)) (mk_room none none)
      (mk_room none none) (mk_room none none) }

/-- An `A` at hallway column 0 while its target room is completely full of
`B` units. -/
def c4_state : GameState :=
  { hallway := fun j => if j.val = 0 then some .A else none,
    rooms := mk_rooms (mk_room (some .B) (some .B)) (mk_room none none)
      (mk_room none none) (mk_room none none) }

/-- The generator moves the `A` into the full room, overwriting (and thereby
destroying) the top `B`. -/
def c4_next : GameState :=
  { hallway := empty_hall,
    rooms := mk_rooms (mk_room (some .A) (some .B)) (mk_room none none)
      (mk_room none none) (mk_room none none) }

/-- A dead end: the `B` at column 2 is blocked by the `A` at column 3 on its
way to door 4, the `A` at column 3 is blocked by the `B` at column 2 on its
way to door 2, and every room is empty. -/
def c5_state : GameState :=
  { hallway := fun j => if j.val = 2 then some .B else if j.val = 3 then some .A else none,
    rooms := mk_rooms (mk_room none none) (mk_room none none)
      (mk_room none none) (mk_room none none) }

/-- A `D` parked directly on the doorway column 2 of room 1, whose topmost
occupant `B` is eligible to leave. -/
def c7_state : GameState :=
  { hallway := fun j => if j.val = 2 then some .D else none,
    rooms := mk_rooms (mk_room (some .B) (some .A)) (mk_room none none)
      (mk_room none none) (mk_room none none) }

/-- Reached from `example_initial` by moving the `C` of room 2 to column 0
(cost 500). -/
def cycle_pre : GameState :=
  { hallway := fun j => if j.val = 0 then some .C else none,
    rooms := mk_rooms (mk_room (some .B) (some .A)) (mk_room none (some .D))
      (mk_room (some .B) (some .C)) (mk_room (some .D) (some .A)) }

/-- Reached from `cycle_pre` by moving the `B` of room 1 to column 3
(cost 20).  From here the `B` can enter room 2 on top of the `D` and leave
again, returning to this very state. -/
def cycle_a : GameState :=
  { hallway := fun j => if j.val = 0 then some .C else if j.val = 3 then some .B else none,
    rooms := mk_rooms (mk_room none (some .A)) (mk_room none (some .D))
      (mk_room (some .B) (some .C)) (mk_room (some .D) (some .A)) }

/-- Reached from `cycle_a` by moving the `B` from column 3 into room 2
(emitted cost 40); moving it back out to column 3 (cost 20) restores
`cycle_a`. -/
def cycle_b : GameState :=
  { hallway := fun j => if j.val = 0 then some .C else none,
    rooms := mk_rooms (mk_room none (some .A)) (mk_room (some .B) (some .D))
      (mk_room (some .B) (some .C)) (mk_room (some .D) (some .A)) }

/-! General facts about the search used by several claims. -/

theorem steps_list_ok_of_mem {f : GameState → Except SearchError Nat}
    {l : List (GameState × Nat)} {vs : List Nat}
    (h : steps_list f l = .ok vs) {p : GameState × Nat} (hp : p ∈ l) :
    ∃ v, f p.1 = .ok v := by
  induction l generalizing vs with
  | nil => cases hp
  | cons q rest ih =>
    rw [steps_list] at h
    rcases hq : f q.1 with e | v
    · rw [hq] at h; cases h
    · rw [hq] at h
      rcases hrest : steps_list f rest with e | ws
      · rw [hrest] at h; cases h
      · rcases List.mem_cons.mp hp with rfl | hp2
        · exact ⟨v, hq⟩
        · exact ih hrest hp2

theorem steps_ok_descend {fuel : Nat} {s : GameState} {v : Nat}
    (h : steps_to_target (fuel + 1) s = .ok v) (hne : s ≠ target_state)
    {p : GameState × Nat} (hp : p ∈ get_possible_moves s) :
    ∃ w, steps_to_target fuel p.1 = .ok w := by
  rw [steps_to_target, if_neg hne] at h
  rcases hl : steps_list (steps_to_target fuel) (get_possible_moves s) with e | vs
  · rw [hl] at h; cases h
  · exact steps_list_ok_of_mem hl hp

theorem cycle_never_ok (fuel : Nat) :
    (∀ v, steps_to_target fuel cycle_a ≠ .ok v) ∧
    (∀ v, steps_to_target fuel cycle_b ≠ .ok v) := by
  induction fuel with
  | zero =>
    constructor <;> · intro v h; rw [steps_to_target] at h; cases h
  | succ n ih =>
    constructor
    · intro v h
      obtain ⟨w, hw⟩ := steps_ok_descend h (by decide)
        (show (cycle_b, 40) ∈ get_possible_moves cycle_a by decide)
      exact ih.2 w hw
    · intro v h
      obtain ⟨w, hw⟩ := steps_ok_descend h (by decide)
        (show (cycle_a, 20) ∈ get_possible_moves cycle_b by decide)
      exact ih.1 w hw

/-- C1: the claim states that every hallway-to-room move is emitted with
cost `(horizontal_distance_to_doorway + depth_reached_within_room + 1) *
unit_energy_rate`.  The code is wrong: it multiplies by the step count a
second time (line 132 yields `steps * energy` with
`energy = steps * energy_costs[letter]`).  On `c1_state` the only move
carries the `A` two columns to door 2 and one slot down, so the intended
cost is `spec_hall_to_room_cost 2 1 1 = 4`, but the generator emits 16. -/
theorem c1_hall_to_room_cost_doubled :
    get_possible_moves c1_state = [(c1_next, 16)] ∧
    spec_hall_to_room_cost (Nat.dist 0 (room_to_hall (target_rooms .A))) 1
      (energy_costs .A) = 4 ∧ (16 : Nat) ≠ 4 := by
  exact ⟨by decide, by decide, by decide⟩

/-- C2: the claim states that a hallway unit may enter its target room only
when the room holds no unit of a different type.  The code is wrong:
line 87 stores the result of `set.discard`, which is `None`, so the check on
lines 91-92 never fires.  In `c2_state` room 1 holds a `B`, yet the
generator emits the move placing the hallway `A` on top of it. -/
theorem c2_enters_room_with_foreign_unit :
    c2_state.rooms 0 1 = some .B ∧ Letter.B ≠ Letter.A ∧
    (c2_next, 9) ∈ get_possible_moves c2_state ∧
    c2_next.rooms 0 0 = some .A ∧ c2_next.rooms 0 1 = some .B := by
  exact ⟨by decide, by decide, by decide, by decide, by decide⟩

/-- C3: the claim states that the search returns 12521 on the classical
example.  The code is wrong: because the hallway-to-room eligibility check
is broken (line 87), the state graph reachable from `example_initial`
contains a genuine cycle — from `cycle_a` the `B` enters room 2 on top of a
`D` giving `cycle_b`, and from `cycle_b` the same `B` exits back to column 3
giving `cycle_a` again — so the depth-first recursion of `steps_to_target`
never returns, whatever recursion budget it is given (Python dies with
`RecursionError`). -/
theorem c3_example_search_never_returns :
    ((cycle_pre, 500) ∈ get_possible_moves example_initial ∧
      (cycle_a, 20) ∈ get_possible_moves cycle_pre ∧
      (cycle_b, 40) ∈ get_possible_moves cycle_a ∧
      (cycle_a, 20) ∈ get_possible_moves cycle_b) ∧
    ∀ fuel v, steps_to_target fuel example_initial ≠ .ok v := by
  refine ⟨⟨by decide, by decide, by decide, by decide⟩, ?_⟩
  intro fuel v h
  match fuel, h with
  | fuel0 + 1, h =>
    obtain ⟨w, hw⟩ := steps_ok_descend h (by decide)
      (show (cycle_pre, 500) ∈ get_possible_moves example_initial by decide)
    match fuel0, hw with
    | fuel1 + 1, hw =>
      obtain ⟨u, hu⟩ := steps_ok_descend hw (by decide)
        (show (cycle_a, 20) ∈ get_possible_moves cycle_pre by decide)
      exact (cycle_never_ok fuel1).1 u hu

/-- C4: the claim states that every emitted move preserves the multiset of
unit labels.  The code is wrong: with the eligibility check broken
(line 87), a hallway unit may be sent into a completely full room, and
line 128 then overwrites the room's top occupant.  From `c4_state`
(an `A` in the hallway, room 1 full of two `B` units) the generator emits
`c4_next`, in which one `B` has been destroyed. -/
theorem c4_conservation_violated :
    (c4_next, 9) ∈ get_possible_moves c4_state ∧
    state_labels c4_state = {.A, .B, .B} ∧
    state_labels c4_next = {.A, .B} ∧
    state_labels c4_state ≠ state_labels c4_next := by
  exact ⟨by decide, by decide, by decide, by decide⟩

/-- C5: the claim states that on a dead-end non-target state the search
fails with an explicit `Unsolvable` condition instead of crashing on
`min` of an empty sequence.  The code is wrong: line 146 computes
`min(possible_costs)` over the empty list, which raises Python's generic
`ValueError` (embedded as `SearchError.valueError`); no `Unsolvable`
condition exists anywhere in the program.  `c5_state` is such a dead end:
it is not the target and has no legal moves. -/
theorem c5_dead_end_raises_value_error :
    c5_state ≠ target_state ∧ get_possible_moves c5_state = [] ∧
    ∀ fuel, steps_to_target (fuel + 1) c5_state = .error .valueError := by
  refine ⟨by decide, by decide, fun fuel => ?_⟩
  rw [steps_to_target, if_neg (by decide),
    show get_possible_moves c5_state = [] from by decide]
  rfl

/-- C10: on the target state the search returns 0 (line 136-138), and the
generator yields no moves (every room is settled and the hallway is empty). -/
theorem c10_target_state_base_case :
    get_possible_moves target_state = [] ∧
    ∀ fuel, steps_to_target (fuel + 1) target_state = .ok 0 := by
  refine ⟨by decide, fun fuel => ?_⟩
  rw [steps_to_target, if_pos rfl]

/-! Small facts about the embedded operations. -/

theorem target_rooms_injective :
    ∀ l1 l2 : Letter, target_rooms l1 = target_rooms l2 → l1 = l2 := by
  intro l1 l2 h
  cases l1 <;> cases l2 <;> first | rfl | exact absurd h (by decide)

theorem room_to_hall_le_eight : ∀ i : Fin 4, room_to_hall i ≤ 8 := by decide

theorem is_doorway_room_to_hall : ∀ i : Fin 4, is_doorway (room_to_hall i) = true := by
  decide

theorem topLoc_eq_some {room : Fin 2 → Slot} {t : Fin 2} {l : Letter}
    (h : topLoc room = some (t, l)) : room t = some l := by
  unfold topLoc at h
  cases h0 : room 0 with
  | some x =>
    rw [h0] at h
    obtain ⟨rfl, rfl⟩ : t = 0 ∧ x = l := by
      constructor <;> [skip; skip] <;> cases h <;> rfl
    exact h0
  | none =>
    rw [h0] at h
    cases h1 : room 1 with
    | some x =>
      rw [h1] at h
      obtain ⟨rfl, rfl⟩ : t = 1 ∧ x = l := by
        constructor <;> [skip; skip] <;> cases h <;> rfl
      exact h1
    | none => rw [h1] at h; cases h

theorem set_room_hallway (s : GameState) (i : Fin 4) (d : Fin 2) (v : Slot) :
    (set_room s i d v).hallway = s.hallway := rfl

theorem set_hall_rooms (s : GameState) (j : Nat) (v : Slot) :
    (set_hall s j v).rooms = s.rooms := rfl

theorem set_hall_hallway (s : GameState) (j : Nat) (v : Slot) (k : Fin 11) :
    (set_hall s j v).hallway k = if k.val = j then v else s.hallway k := rfl

theorem set_room_rooms (s : GameState) (i : Fin 4) (d : Fin 2) (v : Slot)
    (i' : Fin 4) (d' : Fin 2) :
    (set_room s i d v).rooms i' d' =
      if i' = i then (if d' = d then v else s.rooms i d') else s.rooms i' d' := by
  unfold set_room
  by_cases hi : i' = i
  · subst hi
    rw [if_pos rfl]
    show Function.update s.rooms i' (Function.update (s.rooms i') d v) i' d' = _
    rw [Function.update_same]
    by_cases hd : d' = d
    · subst hd; rw [if_pos rfl, Function.update_same]
    · rw [if_neg hd, Function.update_noteq hd]
  · rw [if_neg hi]
    show Function.update s.rooms i (Function.update (s.rooms i) d v) i' d' = _
    rw [Function.update_noteq hi]

/-! Unfolding the two halves of the move generator. -/

theorem room_moves_eq_none {s : GameState} {i : Fin 4}
    (h : topLoc (s.rooms i) = none) : room_moves s i = [] := by
  unfold room_moves; rw [h]

theorem room_moves_eq_some {s : GameState} {i : Fin 4} {t : Fin 2} {l : Letter}
    (h : topLoc (s.rooms i) = some (t, l)) :
    room_moves s i =
      if settled_check s i t l then []
      else
        (left_locs s.hallway (room_to_hall i) ++ right_locs s.hallway (room_to_hall i)).map
          fun loc =>
            (set_hall (set_room s i t none) loc (some l),
             (t.val + 1 + Nat.dist loc (room_to_hall i)) * energy_costs l) := by
  unfold room_moves; rw [h]

theorem hall_moves_eq_none {s : GameState} {i : Fin 11}
    (h : s.hallway i = none) : hall_moves s i = [] := by
  unfold hall_moves; rw [h]

theorem hall_moves_eq_some {s : GameState} {i : Fin 11} {l : Letter}
    (h : s.hallway i = some l) :
    hall_moves s i =
      if path_clear s.hallway i.val (room_to_hall (target_rooms l)) then
        [(set_room (set_hall s i.val none) (target_rooms l)
            (room_slot (s.rooms (target_rooms l))) (some l),
          (Nat.dist i.val (room_to_hall (target_rooms l)) +
              (room_slot (s.rooms (target_rooms l))).val + 1) *
            ((Nat.dist i.val (room_to_hall (target_rooms l)) +
                (room_slot (s.rooms (target_rooms l))).val + 1) * energy_costs l))]
      else [] := by
  unfold hall_moves; rw [h]

/-- Everything a membership in the room-to-hallway half tells us. -/
theorem mem_room_moves_inv {s : GameState} {i : Fin 4} {p : GameState × Nat}
    (hp : p ∈ room_moves s i) :
    ∃ (t : Fin 2) (l : Letter) (loc : Nat),
      topLoc (s.rooms i) = some (t, l) ∧ settled_check s i t l = false ∧
      loc ∈ left_locs s.hallway (room_to_hall i) ++ right_locs s.hallway (room_to_hall i) ∧
      p = (set_hall (set_room s i t none) loc (some l),
           (t.val + 1 + Nat.dist loc (room_to_hall i)) * energy_costs l) := by
  cases htop : topLoc (s.rooms i) with
  | none => rw [room_moves_eq_none htop] at hp; cases hp
  | some tl =>
    obtain ⟨t, l⟩ := tl
    rw [room_moves_eq_some htop] at hp
    by_cases hsc : settled_check s i t l = true
    · rw [if_pos hsc] at hp; cases hp
    · rw [if_neg hsc] at hp
      obtain ⟨loc, hloc, hpeq⟩ := List.mem_map.mp hp
      exact ⟨t, l, loc, rfl, by simpa using hsc, hloc, hpeq.symm⟩

/-- Everything a membership in the hallway-to-room half tells us. -/
theorem mem_hall_moves_inv {s : GameState} {i : Fin 11} {p : GameState × Nat}
    (hp : p ∈ hall_moves s i) :
    ∃ l : Letter,
      s.hallway i = some l ∧
      path_clear s.hallway i.val (room_to_hall (target_rooms l)) = true ∧
      p = (set_room (set_hall s i.val none) (target_rooms l)
             (room_slot (s.rooms (target_rooms l))) (some l),
           (Nat.dist i.val (room_to_hall (target_rooms l)) +
               (room_slot (s.rooms (target_rooms l))).val + 1) *
             ((Nat.dist i.val (room_to_hall (target_rooms l)) +
                 (room_slot (s.rooms (target_rooms l))).val + 1) * energy_costs l)) := by
  cases hsl : s.hallway i with
  | none => rw [hall_moves_eq_none hsl] at hp; cases hp
  | some l =>
    rw [hall_moves_eq_some hsl] at hp
    by_cases hpc : path_clear s.hallway i.val (room_to_hall (target_rooms l)) = true
    · rw [if_pos hpc] at hp
      rcases List.mem_singleton.mp hp with rfl
      exact ⟨l, rfl, hpc, rfl⟩
    · rw [if_neg hpc] at hp; cases hp

/-! Characterizing the hallway scans. -/

theorem left_locs_succ (hall : Fin 11 → Slot) (d : Nat) :
    left_locs hall (d + 1) = left_step hall (left_locs hall d) d := by
  unfold left_locs
  rw [List.range_succ, List.foldl_append, List.foldl_cons, List.foldl_nil]

/-- Column `j` survives the leftward scan up to `door` exactly when it is a
non-doorway column and every column from `j` up to (excluding) `door` is
empty. -/
theorem left_locs_mem (hall : Fin 11 → Slot) (d j : Nat) :
    j ∈ left_locs hall d ↔
      (j < d ∧ is_doorway j = false ∧
        ∀ k, j ≤ k → k < d → hallAt hall k = none) := by
  induction d with
  | zero =>
    simp only [left_locs, List.range_zero, List.foldl_nil, List.not_mem_nil, false_iff]
    rintro ⟨h1, -, -⟩
    omega
  | succ d ih =>
    rw [left_locs_succ]
    unfold left_step
    by_cases hocc : hallAt hall d = none
    · rw [if_neg (fun hc => hc hocc)]
      by_cases hdw : is_doorway d = true
      · rw [if_pos hdw, ih]
        constructor
        · rintro ⟨h1, h2, h3⟩
          refine ⟨by omega, h2, fun k hk1 hk2 => ?_⟩
          rcases Nat.lt_succ_iff_lt_or_eq.mp hk2 with h | rfl
          · exact h3 k hk1 h
          · exact hocc
        · rintro ⟨h1, h2, h3⟩
          have hne : j ≠ d := fun hEq => by rw [hEq, hdw] at h2; cases h2
          exact ⟨by omega, h2, fun k hk1 hk2 => h3 k hk1 (by omega)⟩
      · rw [if_neg hdw]
        simp only [List.mem_append, List.mem_singleton, ih]
        constructor
        · rintro (⟨h1, h2, h3⟩ | rfl)
          · refine ⟨by omega, h2, fun k hk1 hk2 => ?_⟩
            rcases Nat.lt_succ_iff_lt_or_eq.mp hk2 with h | rfl
            · exact h3 k hk1 h
            · exact hocc
          · refine ⟨by omega, by simpa using hdw, fun k hk1 hk2 => ?_⟩
            have hkj : k = j := by omega
            rw [hkj] at hk2 ⊢
            exact hocc
        · rintro ⟨h1, h2, h3⟩
          by_cases hjd : j = d
          · exact Or.inr hjd
          · exact Or.inl ⟨by omega, h2, fun k hk1 hk2 => h3 k hk1 (by omega)⟩
    · rw [if_pos hocc]
      simp only [List.not_mem_nil, false_iff]
      rintro ⟨h1, -, h3⟩
      exact hocc (h3 d (by omega) (by omega))

/-- Column `j` survives the rightward scan started at `j0` with `fuel`
remaining iterations exactly when it is a non-doorway column within range
and every column from `j0` up to (including) `j` is empty. -/
theorem right_scan_mem (hall : Fin 11 → Slot) (fuel : Nat) :
    ∀ j0 j, j ∈ right_scan hall j0 fuel ↔
      (j0 ≤ j ∧ j < j0 + fuel ∧ is_doorway j = false ∧
        ∀ k, j0 ≤ k → k ≤ j → hallAt hall k = none) := by
  induction fuel with
  | zero =>
    intro j0 j
    simp only [right_scan, List.not_mem_nil, false_iff]
    rintro ⟨h1, h2, -, -⟩
    omega
  | succ f ih =>
    intro j0 j
    rw [right_scan]
    by_cases hocc : hallAt hall j0 = none
    · rw [if_neg (fun hc => hc hocc)]
      by_cases hdw : is_doorway j0 = true
      · rw [if_pos hdw, ih]
        constructor
        · rintro ⟨h1, h2, h3, h4⟩
          refine ⟨by omega, by omega, h3, fun k hk1 hk2 => ?_⟩
          rcases Nat.eq_or_lt_of_le hk1 with rfl | hlt
          · exact hocc
          · exact h4 k (by omega) hk2
        · rintro ⟨h1, h2, h3, h4⟩
          have hne : j ≠ j0 := fun hEq => by rw [hEq, hdw] at h3; cases h3
          exact ⟨by omega, by omega, h3, fun k hk1 hk2 => h4 k (by omega) hk2⟩
      · rw [if_neg hdw]
        simp only [List.mem_cons, ih]
        constructor
        · rintro (rfl | ⟨h1, h2, h3, h4⟩)
          · refine ⟨Nat.le_refl _, by omega, by simpa using hdw, fun k hk1 hk2 => ?_⟩
            have hkj : k = j := by omega
            rw [hkj]
            exact hocc
          · refine ⟨by omega, by omega, h3, fun k hk1 hk2 => ?_⟩
            rcases Nat.eq_or_lt_of_le hk1 with rfl | hlt
            · exact hocc
            · exact h4 k (by omega) hk2
        · rintro ⟨h1, h2, h3, h4⟩
          by_cases hjj : j = j0
          · exact Or.inl hjj
          · exact Or.inr ⟨by omega, by omega, h3, fun k hk1 hk2 => h4 k (by omega) hk2⟩
    · rw [if_pos hocc]
      simp only [List.not_mem_nil, false_iff]
      rintro ⟨h1, -, -, h4⟩
      exact hocc (h4 j0 (Nat.le_refl _) h1)

/-- Any surviving destination column is inside the hallway, not a doorway,
and currently empty. -/
theorem mem_locs_facts {hall : Fin 11 → Slot} {door loc : Nat} (hd : door ≤ 8)
    (h : loc ∈ left_locs hall door ++ right_locs hall door) :
    loc < 11 ∧ is_doorway loc = false ∧ hallAt hall loc = none := by
  rcases List.mem_append.mp h with h | h
  · obtain ⟨h1, h2, h3⟩ := (left_locs_mem hall door loc).mp h
    exact ⟨by omega, h2, h3 loc (Nat.le_refl _) h1⟩
  · obtain ⟨h1, h2, h3, h4⟩ := (right_scan_mem hall (11 - door) door loc).mp h
    exact ⟨by omega, h3, h4 loc h1 (Nat.le_refl _)⟩

/-- A settled slot (right letter, right room, matching letters below)
makes the room-skip condition of line 44 fire when it is the topmost one. -/
theorem suffix_all_of_settled {room : Fin 2 → Slot} {d : Fin 2} {l : Letter}
    (hl : room d = some l) (hb : ∀ e : Fin 2, d < e → room e = some l) :
    suffix_all room d l = true := by
  unfold suffix_all
  by_cases hd : d = 0
  · subst hd
    rw [if_pos rfl, Bool.and_eq_true]
    exact ⟨decide_eq_true hl, decide_eq_true (hb 1 (by decide))⟩
  · have hv : d.val ≠ 0 := fun h => hd (Fin.ext h)
    have h2 := d.isLt
    have hd1 : d = 1 := Fin.ext (by omega)
    subst hd1
    rw [if_neg (by decide)]
    exact decide_eq_true hl

/-- C6: every pair emitted by the room-to-hallway half carries the unit from
the topmost occupied slot `t` of some room `i` to an empty non-doorway
hallway column `loc`, and its cost is
`(depth + 1 + horizontal_distance) * rate` — the depth being `t` (the slot
index occupied before moving) and the distance `abs(loc - door)`, multiplied
by the unit's energy rate exactly once (line 77). -/
theorem c6_room_to_hall_cost (s : GameState) (p : GameState × Nat)
    (hp : p ∈ room_to_hall_moves s) :
    ∃ (i : Fin 4) (t : Fin 2) (l : Letter) (loc : Nat),
      topLoc (s.rooms i) = some (t, l) ∧
      loc < 11 ∧ hallAt s.hallway loc = none ∧
      p.1 = set_hall (set_room s i t none) loc (some l) ∧
      p.2 = (t.val + 1 + Nat.dist loc (room_to_hall i)) * energy_costs l := by
  obtain ⟨i, -, hi⟩ := List.mem_flatMap.mp hp
  obtain ⟨t, l, loc, htop, hsc, hloc, hpe⟩ := mem_room_moves_inv hi
  obtain ⟨h11, hdw, hempty⟩ := mem_locs_facts (room_to_hall_le_eight i) hloc
  subst hpe
  exact ⟨i, t, l, loc, htop, h11, hempty, rfl, rfl⟩

/-- C6 witness: the very first move of the classical example, the `C` of
room 2 moving to column 0 at cost `(0 + 1 + 4) * 100 = 500`. -/
theorem c6_witness :
    ∃ (i : Fin 4) (t : Fin 2) (l : Letter) (loc : Nat),
      topLoc (example_initial.rooms i) = some (t, l) ∧
      loc < 11 ∧ hallAt example_initial.hallway loc = none ∧
      (cycle_pre, 500).1 = set_hall (set_room example_initial i t none) loc (some l) ∧
      (cycle_pre, 500).2 = (t.val + 1 + Nat.dist loc (room_to_hall i)) * energy_costs l :=
  c6_room_to_hall_cost example_initial (cycle_pre, 500) (by decide)

/-- C9: no emitted move parks a unit on a doorway column: if a doorway
column is empty in the input state, it is empty in every emitted next
state. -/
theorem c9_no_doorway_parking (s : GameState) (p : GameState × Nat)
    (hp : p ∈ get_possible_moves s) (j : Fin 11)
    (hj : j.val = 2 ∨ j.val = 4 ∨ j.val = 6 ∨ j.val = 8)
    (he : s.hallway j = none) : p.1.hallway j = none := by
  have hjdw : is_doorway j.val = true := by
    rcases hj with h | h | h | h <;> rw [h] <;> rfl
  rcases List.mem_append.mp hp with h | h
  · obtain ⟨i, -, hi⟩ := List.mem_flatMap.mp h
    obtain ⟨t, l, loc, htop, hsc, hloc, hpe⟩ := mem_room_moves_inv hi
    obtain ⟨-, hdw, -⟩ := mem_locs_facts (room_to_hall_le_eight i) hloc
    subst hpe
    have hne : j.val ≠ loc := fun hEq => by rw [hEq, hdw] at hjdw; cases hjdw
    show (if j.val = loc then some l else s.hallway j) = none
    rw [if_neg hne]
    exact he
  · obtain ⟨i, -, hi⟩ := List.mem_flatMap.mp h
    obtain ⟨l, hsl, hpc, hpe⟩ := mem_hall_moves_inv hi
    subst hpe
    show (if j.val = i.val then none else s.hallway j) = none
    by_cases hji : j.val = i.val
    · rw [if_pos hji]
    · rw [if_neg hji]; exact he

/-- C9 witness: doorway column 4 is empty in the example state and stays
empty in the emitted move to `cycle_pre`. -/
theorem c9_witness :
    example_initial.hallway 4 = none ∧
    ((4 : Fin 11).val = 2 ∨ (4 : Fin 11).val = 4 ∨ (4 : Fin 11).val = 6 ∨
      (4 : Fin 11).val = 8) ∧
    (cycle_pre, 500).1.hallway 4 = none :=
  ⟨rfl, Or.inr (Or.inl rfl),
    c9_no_doorway_parking example_initial (cycle_pre, 500) (by decide) 4
      (Or.inr (Or.inl rfl)) rfl⟩

/-- C8: a unit sitting in its own target room with only matching letters
below it is never disturbed: its slot holds the same letter in every
emitted next state. -/
theorem c8_settled_unit_never_moved (s : GameState) (p : GameState × Nat)
    (hp : p ∈ get_possible_moves s) (i : Fin 4) (d : Fin 2) (l : Letter)
    (hl : s.rooms i d = some l) (ht : target_rooms l = i)
    (hb : ∀ e : Fin 2, d < e → s.rooms i e = some l) :
    p.1.rooms i d = some l := by
  rcases List.mem_append.mp hp with h | h
  · obtain ⟨i', -, hi⟩ := List.mem_flatMap.mp h
    obtain ⟨t, l', loc, htop, hsc, hloc, hpe⟩ := mem_room_moves_inv hi
    subst hpe
    show (set_room s i' t none).rooms i d = some l
    rw [set_room_rooms]
    by_cases hii : i = i'
    · rw [if_pos hii]
      by_cases hdt : d = t
      · exfalso
        obtain rfl := hii
        obtain rfl := hdt
        have htl : s.rooms i d = some l' := topLoc_eq_some htop
        rw [hl] at htl
        injection htl with hll
        obtain rfl := hll
        have hset : settled_check s i d l = true := by
          unfold settled_check
          rw [Bool.and_eq_true]
          exact ⟨decide_eq_true ht, suffix_all_of_settled hl hb⟩
        rw [hset] at hsc
        cases hsc
      · rw [if_neg hdt]
        obtain rfl := hii
        exact hl
    · rw [if_neg hii]; exact hl
  · obtain ⟨i0, -, hi⟩ := List.mem_flatMap.mp h
    obtain ⟨l', hsl, hpc, hpe⟩ := mem_hall_moves_inv hi
    subst hpe
    show (set_room (set_hall s i0.val none) (target_rooms l')
      (room_slot (s.rooms (target_rooms l'))) (some l')).rooms i d = some l
    rw [set_room_rooms]
    by_cases hii : i = target_rooms l'
    · rw [if_pos hii]
      by_cases hdr : d = room_slot (s.rooms (target_rooms l'))
      · rw [if_pos hdr]
        have hll : l' = l := target_rooms_injective l' l (by rw [← hii, ht])
        rw [hll]
      · rw [if_neg hdr]
        obtain rfl := hii
        exact hl
    · rw [if_neg hii]; exact hl

/-- C8 witness: the `A` settled at the bottom of room 1 in the example is
still there after the emitted move to `cycle_pre`. -/
theorem c8_witness :
    example_initial.rooms 0 1 = some .A ∧ target_rooms .A = 0 ∧
    (cycle_pre, 500).1.rooms 0 1 = some .A :=
  ⟨rfl, rfl,
    c8_settled_unit_never_moved example_initial (cycle_pre, 500) (by decide) 0 1 .A
      rfl rfl (by decide)⟩

/-- C7 (amended): for an eligible topmost occupant, the emitted
room-to-hallway moves are exactly one per surviving scan column, the
leftward columns are exactly those given by the outward scan
(stop at the boundary or the first occupied slot), and the rightward
columns are exactly those given by the outward scan provided the doorway
column itself is empty; when the doorway column is occupied the rightward
scan of the source (which starts at the doorway, line 62) yields no
columns at all. -/
theorem c7_destination_columns (s : GameState) (i : Fin 4) (t : Fin 2) (l : Letter)
    (htop : topLoc (s.rooms i) = some (t, l))
    (hns : settled_check s i t l = false) :
    (room_moves s i =
      (left_locs s.hallway (room_to_hall i) ++ right_locs s.hallway (room_to_hall i)).map
        fun loc =>
          (set_hall (set_room s i t none) loc (some l),
           (t.val + 1 + Nat.dist loc (room_to_hall i)) * energy_costs l)) ∧
    (∀ j, j ∈ left_locs s.hallway (room_to_hall i) ↔
      (j < room_to_hall i ∧ is_doorway j = false ∧
        ∀ k, j ≤ k → k < room_to_hall i → hallAt s.hallway k = none)) ∧
    (hallAt s.hallway (room_to_hall i) = none →
      ∀ j, j ∈ right_locs s.hallway (room_to_hall i) ↔
        (room_to_hall i < j ∧ j < 11 ∧ is_doorway j = false ∧
          ∀ k, room_to_hall i < k → k ≤ j → hallAt s.hallway k = none)) ∧
    (hallAt s.hallway (room_to_hall i) ≠ none →
      right_locs s.hallway (room_to_hall i) = []) := by
  have h8 := room_to_hall_le_eight i
  refine ⟨?_, ?_, ?_, ?_⟩
  · rw [room_moves_eq_some htop, if_neg (by simp [hns])]
  · exact fun j => left_locs_mem s.hallway (room_to_hall i) j
  · intro hdoor j
    unfold right_locs
    rw [right_scan_mem]
    constructor
    · rintro ⟨h1, h2, h3, h4⟩
      have hne : j ≠ room_to_hall i := fun hEq => by
        rw [hEq, is_doorway_room_to_hall i] at h3; cases h3
      exact ⟨by omega, by omega, h3, fun k hk1 hk2 => h4 k (by omega) hk2⟩
    · rintro ⟨h1, h2, h3, h4⟩
      refine ⟨by omega, by omega, h3, fun k hk1 hk2 => ?_⟩
      rcases Nat.eq_or_lt_of_le hk1 with rfl | hlt
      · exact hdoor
      · exact h4 k hlt hk2
  · intro hdoor
    unfold right_locs
    obtain ⟨n, hn⟩ : ∃ n, 11 - room_to_hall i = n + 1 := ⟨10 - room_to_hall i, by omega⟩
    rw [hn, right_scan, if_pos hdoor]

/-- C7 counterexample: in `c7_state` a `D` is parked on the doorway column 2
of room 1 and the topmost `B` of room 1 is eligible to leave.  Under the
spec's outward scan, column 3 is a reachable destination (columns 3..10 to
the right of the doorway are all empty), yet neither of the two moves the
generator emits for room 1 places the `B` at column 3 — the source's
rightward scan starts at the doorway itself and stops there immediately. -/
theorem c7_counterexample :
    topLoc (c7_state.rooms 0) = some (0, .B) ∧
    settled_check c7_state 0 0 .B = false ∧
    spec_reachable c7_state.hallway (room_to_hall 0) 3 = true ∧
    ((room_moves c7_state 0).map fun p => p.1.hallway 3) = [none, none] := by
  exact ⟨by decide, by decide, by decide, by decide⟩

/-- C7 witness: the amended characterization applied to room 1 of the
classical example (empty hallway, eligible topmost `B`). -/
theorem c7_witness :
    (room_moves example_initial 0 =
      (left_locs example_initial.hallway (room_to_hall 0) ++
        right_locs example_initial.hallway (room_to_hall 0)).map
        fun loc =>
          (set_hall (set_room example_initial 0 0 none) loc (some .B),
           ((0 : Fin 2).val + 1 + Nat.dist loc (room_to_hall 0)) * energy_costs .B)) ∧
    (∀ j, j ∈ left_locs example_initial.hallway (room_to_hall 0) ↔
      (j < room_to_hall 0 ∧ is_doorway j = false ∧
        ∀ k, j ≤ k → k < room_to_hall 0 → hallAt example_initial.hallway k = none)) ∧
    (hallAt example_initial.hallway (room_to_hall 0) = none →
      ∀ j, j ∈ right_locs example_initial.hallway (room_to_hall 0) ↔
        (room_to_hall 0 < j ∧ j < 11 ∧ is_doorway j = false ∧
          ∀ k, room_to_hall 0 < k → k ≤ j → hallAt example_initial.hallway k = none)) ∧
    (hallAt example_initial.hallway (room_to_hall 0) ≠ none →
      right_locs example_initial.hallway (room_to_hall 0) = []) :=
  c7_destination_columns example_initial 0 0 .B (by decide) (by decide)
